import Mathlib

/-!
Shallow embedding of the Apache Jira scraper (src/jira_scraper.py) and proofs
of the specification claims C1-C10.

JSON values are modelled by an inductive type; Python dictionaries are ordered
association lists (insertion order preserved, as in CPython). Operations that
can raise a Python exception are embedded as `Except String` computations whose
error string names the exception class.
-/

namespace Jira

/-- JSON values as produced by `response.json()` / `json.load`. Objects keep
insertion order, like Python dicts. -/
inductive Json where
  | null
  | bool (b : Bool)
  | num (n : Int)
  | str (s : String)
  | arr (elems : List Json)
  | obj (fields : List (String × Json))

/-- Python truthiness (`bool(x)`) on JSON values: `None`, `False`, `0`, `""`,
`[]`, `{}` are falsy. -/
def truthy : Json → Bool
  | .null => false
  | .bool b => b
  | .num n => n != 0
  | .str s => s != ""
  | .arr l => !l.isEmpty
  | .obj l => !l.isEmpty

/-- Lookup of a key in a Python dict (first matching key of the assoc list). -/
def lookupKey : List (String × Json) → String → Option Json
  | [], _ => none
  | (k', v) :: rest, k => if k' = k then some v else lookupKey rest k

/-- Python dict assignment `d[k] = v`: replace in place if the key exists
(keeping its position), else append at the end. -/
def dictSet : List (String × Json) → String → Json → List (String × Json)
  | [], k, v => [(k, v)]
  | (k', v') :: rest, k, v =>
      if k' = k then (k, v) :: rest else (k', v') :: dictSet rest k v

/-- Python `data.get(k, d)`: raises `AttributeError` when `data` is not a
dict. -/
def pyGet (data : Json) (k : String) (d : Json) : Except String Json :=
  match data with
  | .obj kvs => .ok ((lookupKey kvs k).getD d)
  | _ => .error "AttributeError"

/-- Python `len(x)`: defined on strings, lists and dicts, `TypeError`
otherwise. -/
def pyLen : Json → Except String Nat
  | .str s => .ok s.length
  | .arr l => .ok l.length
  | .obj l => .ok l.length
  | _ => .error "TypeError"

/-- ASCII lowering of one character, as Python `str.lower` acts on the ASCII
range (the only range the scraper compares against). -/
def pyLowerChar (c : Char) : Char :=
  if c.toNat < 65 ∨ 90 < c.toNat then c else Char.ofNat (c.toNat + 32)

/-- Python `s.lower()` on a string. -/
def pyLowerStr (s : String) : String := ⟨s.data.map pyLowerChar⟩

/-- Python `x.lower()`: only strings have `lower`. -/
def pyLower : Json → Except String String
  | .str s => .ok (pyLowerStr s)
  | _ => .error "AttributeError"

/-- `DataTransformer.safe_get(data, *keys, default=...)` (lines 189-197):
walk the keys; a non-dict encountered mid-walk returns the default; at the
end the value is returned only if truthy, else the default. -/
def safe_get (data : Json) (keys : List String) (default : Json) : Json :=
  match keys with
  | [] => if truthy data then data else default
  | k :: ks =>
      match data with
      | .obj kvs => safe_get ((lookupKey kvs k).getD (.obj [])) ks default
      | _ => default

/-- `DataTransformer._determine_training_task` (lines 247-262), embedded with
the exact Python evaluation order: `issue_type.lower()` is evaluated first
(raising on non-strings), `len(description)` only when rule 1 did not match. -/
def determine_training_task (issue_type description : Json)
    (comments : List Json) : Except String String :=
  match pyLower issue_type with
  | .error e => .error e
  | .ok t =>
      if t = "bug" ∧ 2 < comments.length then .ok "question_answering"
      else
        match pyLen description with
        | .error e => .error e
        | .ok dlen =>
            if 500 < dlen then .ok "summarization"
            else if t = "bug" ∨ t = "improvement" ∨ t = "new feature" ∨ t = "task" then
              .ok "classification"
            else .ok "general"

/-- The classification rules exactly as the specification words them (§4.5),
for comparison with the embedded code. -/
def spec_training_task (issue_type description : String) (commentCount : Nat) : String :=
  if pyLowerStr issue_type = "bug" ∧ 2 < commentCount then "question_answering"
  else if 500 < description.length then "summarization"
  else if pyLowerStr issue_type = "bug" ∨ pyLowerStr issue_type = "improvement" ∨
      pyLowerStr issue_type = "new feature" ∨ pyLowerStr issue_type = "task" then
    "classification"
  else "general"

/-- C3: on every issue-type string, description string and comment list, the
code's classifier agrees with the spec's four rules evaluated in strict
priority order with first match winning; in particular a (case-insensitive)
"bug" with 3 comments yields `question_answering` regardless of description
length. -/
theorem c3_priority_order (t d : String) (cs : List Json) :
    determine_training_task (.str t) (.str d) cs = .ok (spec_training_task t d cs.length) ∧
    (pyLowerStr t = "bug" → cs.length = 3 →
      determine_training_task (.str t) (.str d) cs = .ok "question_answering") := by
  constructor
  · simp only [determine_training_task, pyLower, pyLen, spec_training_task]
    split
    · simp_all
    · split
      · simp_all
      · split <;> simp_all
  · intro hbug hlen
    simp [determine_training_task, pyLower, hbug, hlen]

/-- Witness for C3 at the spec's own example: type "Bug", 3 comments,
10-character description. -/
theorem c3_priority_order_witness :
    determine_training_task (.str "Bug") (.str "short desc") [.null, .null, .null] =
      .ok "question_answering" :=
  (c3_priority_order "Bug" "short desc" [.null, .null, .null]).2 (by decide) (by decide)

/-- The checkpoint file on disk: `none` when the file does not exist,
`some none` when its text does not parse as JSON (`json.load` raises
`JSONDecodeError`), `some (some j)` when its text parses to the value `j`. -/
def CheckpointFile := Option (Option Json)

/-- `CheckpointManager._load_checkpoint` (lines 158-168): a missing file or
unparseable contents yield the fresh state `{'projects': {}}` (with a logged
warning in the unparseable case); otherwise the parsed JSON is the state. -/
def load_checkpoint : CheckpointFile → Json
  | some (some j) => j
  | some none => .obj [("projects", .obj [])]
  | none => .obj [("projects", .obj [])]

/-- `CheckpointManager.get_project_progress` (lines 176-178):
`self.state['projects'].get(project, 0)`. Subscripting a non-dict raises
`TypeError`, a missing 'projects' key raises `KeyError`, and `.get` on a
non-dict 'projects' value raises `AttributeError`. -/
def get_project_progress (state : Json) (project : String) : Except String Json :=
  match state with
  | .obj kvs =>
      match lookupKey kvs "projects" with
      | some (.obj pkvs) => .ok ((lookupKey pkvs project).getD (.num 0))
      | some _ => .error "AttributeError"
      | none => .error "KeyError"
  | _ => .error "TypeError"

/-- `CheckpointManager.update_project_progress` together with the
`save_checkpoint` it calls (lines 170-183): `self.state['projects'][project]
= start_at`, then the whole state is rewritten to the file. Returns the new
in-memory state and the new file contents. -/
def update_project_progress (state : Json) (project : String) (start_at : Nat) :
    Except String (Json × CheckpointFile) :=
  match state with
  | .obj kvs =>
      match lookupKey kvs "projects" with
      | some (.obj pkvs) =>
          let newState :=
            Json.obj (dictSet kvs "projects" (.obj (dictSet pkvs project (.num start_at))))
          .ok (newState, some (some newState))
      | some _ => .error "TypeError"
      | none => .error "KeyError"
  | _ => .error "TypeError"

theorem lookupKey_dictSet_self (l : List (String × Json)) (k : String) (v : Json) :
    lookupKey (dictSet l k v) k = some v := by
  induction l with
  | nil => simp [dictSet, lookupKey]
  | cons kv rest ih =>
      obtain ⟨a, b⟩ := kv
      by_cases h : a = k <;> simp [dictSet, lookupKey, h, ih]

theorem lookupKey_dictSet_of_ne (l : List (String × Json)) (k other : String) (v : Json)
    (h : other ≠ k) : lookupKey (dictSet l k v) other = lookupKey l other := by
  induction l with
  | nil => simp [dictSet, lookupKey, Ne.symm h]
  | cons kv rest ih =>
      obtain ⟨a, b⟩ := kv
      by_cases ha : a = k
      · subst ha
        simp [dictSet, lookupKey, Ne.symm h]
      · by_cases hb : a = other <;> simp [dictSet, lookupKey, ha, hb, h, ih]

/-- C6: checkpoint round-trip. For any in-memory state whose 'projects' entry
is a dict, `update_project_progress s n` persists a file from which a fresh
`_load_checkpoint` followed by `get_project_progress s` returns exactly `n`. -/
theorem c6_checkpoint_roundtrip (kvs pkvs : List (String × Json)) (s : String) (n : Nat)
    (hp : lookupKey kvs "projects" = some (.obj pkvs)) :
    ∃ st,
      update_project_progress (.obj kvs) s n = .ok (st, some (some st)) ∧
      get_project_progress (load_checkpoint (some (some st))) s = .ok (.num n) := by
  refine ⟨Json.obj (dictSet kvs "projects" (.obj (dictSet pkvs s (.num n)))), ?_, ?_⟩
  · simp [update_project_progress, hp]
  · simp [load_checkpoint, get_project_progress, lookupKey_dictSet_self]

/-- Witness for C6: advancing "KAFKA" to 7 from the fresh state and reloading
yields 7. -/
theorem c6_checkpoint_roundtrip_witness :
    ∃ st,
      update_project_progress (.obj [("projects", .obj [])]) "KAFKA" 7 =
        .ok (st, some (some st)) ∧
      get_project_progress (load_checkpoint (some (some st))) "KAFKA" = .ok (.num 7) :=
  c6_checkpoint_roundtrip [("projects", .obj [])] [] "KAFKA" 7 rfl

/-- C7 counterexample: the checkpoint file can hold valid JSON that is not the
expected shape. The file text `{}` parses, `_load_checkpoint` returns `{}`
(not the empty default mapping), and `get_project_progress` then raises
`KeyError` instead of returning 0 — so "progress queries never fail for every
possible file state" is false as stated. -/
theorem c7_counterexample :
    load_checkpoint (some (some (.obj []))) = .obj [] ∧
    get_project_progress (.obj []) "KAFKA" = .error "KeyError" :=
  ⟨rfl, rfl⟩

/-- C7 amended: `_load_checkpoint` itself is total — a missing or unparseable
file yields the default state `{'projects': {}}`, and a parsed file yields its
JSON value verbatim; `get_project_progress` returns the persisted offset or
the default 0 provided the loaded state has a 'projects' dict (which holds for
the default state). For parseable states without a 'projects' dict the query
raises (see the counterexample). -/
theorem c7_load_never_fails (f : CheckpointFile) (s : String)
    (kvs pkvs : List (String × Json)) :
    (f = none ∨ f = some none → load_checkpoint f = .obj [("projects", .obj [])]) ∧
    load_checkpoint (some (some (.obj kvs))) = .obj kvs ∧
    (lookupKey kvs "projects" = some (.obj pkvs) →
      get_project_progress (.obj kvs) s = .ok ((lookupKey pkvs s).getD (.num 0))) ∧
    get_project_progress (.obj [("projects", .obj [])]) s = .ok (.num 0) := by
  refine ⟨?_, rfl, ?_, ?_⟩
  · rintro (rfl | rfl) <;> rfl
  · intro hp
    simp [get_project_progress, hp]
  · simp [get_project_progress, lookupKey]

/-- Witness for C7: an unparseable file loads as the default state, and a
persisted offset of 4 for "KAFKA" is returned by a progress query. -/
theorem c7_load_never_fails_witness :
    load_checkpoint (some none) = .obj [("projects", .obj [])] ∧
    get_project_progress (.obj [("projects", .obj [("KAFKA", .num 4)])]) "KAFKA" =
      .ok (.num 4) := by
  refine ⟨(c7_load_never_fails (some none) "KAFKA" [] []).1 (Or.inr rfl), ?_⟩
  have h := (c7_load_never_fails (some none) "KAFKA"
    [("projects", .obj [("KAFKA", .num 4)])] [("KAFKA", .num 4)]).2.2.1 rfl
  simpa [lookupKey] using h

/-- C10: frame property of the checkpoint advance. Updating source `s` to `n`
persists a state in which `s` maps to `n` while every other source's progress
is unchanged, both in memory and in the freshly reloaded persisted file; the
progress query is embedded as a pure function of the state and mutates
nothing. -/
theorem c10_update_frame (kvs pkvs : List (String × Json)) (s other : String) (n : Nat)
    (hp : lookupKey kvs "projects" = some (.obj pkvs)) (hne : other ≠ s) :
    ∃ st,
      update_project_progress (.obj kvs) s n = .ok (st, some (some st)) ∧
      get_project_progress st s = .ok (.num n) ∧
      get_project_progress st other = get_project_progress (.obj kvs) other ∧
      get_project_progress (load_checkpoint (some (some st))) other =
        get_project_progress (.obj kvs) other := by
  refine ⟨Json.obj (dictSet kvs "projects" (.obj (dictSet pkvs s (.num n)))), ?_, ?_, ?_, ?_⟩
  · simp [update_project_progress, hp]
  · simp [get_project_progress, lookupKey_dictSet_self]
  · simp [get_project_progress, lookupKey_dictSet_self, hp,
      lookupKey_dictSet_of_ne _ _ _ _ hne]
  · simp [load_checkpoint, get_project_progress, lookupKey_dictSet_self, hp,
      lookupKey_dictSet_of_ne _ _ _ _ hne]

/-- Witness for C10: advancing "KAFKA" to 9 leaves "BEAM" at its old value. -/
theorem c10_update_frame_witness :
    ∃ st,
      update_project_progress
          (.obj [("projects", .obj [("KAFKA", .num 1), ("BEAM", .num 2)])]) "KAFKA" 9 =
        .ok (st, some (some st)) ∧
      get_project_progress st "KAFKA" = .ok (.num 9) ∧
      get_project_progress st "BEAM" =
        get_project_progress
          (.obj [("projects", .obj [("KAFKA", .num 1), ("BEAM", .num 2)])]) "BEAM" ∧
      get_project_progress (load_checkpoint (some (some st))) "BEAM" =
        get_project_progress
          (.obj [("projects", .obj [("KAFKA", .num 1), ("BEAM", .num 2)])]) "BEAM" :=
  c10_update_frame [("projects", .obj [("KAFKA", .num 1), ("BEAM", .num 2)])]
    [("KAFKA", .num 1), ("BEAM", .num 2)] "KAFKA" "BEAM" 9 rfl (by decide)

/-- `JiraIssue` (lines 29-47). Python's dataclass does not enforce the field
annotations, so fields that receive raw JSON values keep type `Json`; the
derived `project` is always a Python string, as is `training_task`. -/
structure JiraIssue where
  issue_id : Json
  project : String
  title : Json
  description : Json
  status : Json
  priority : Json
  issue_type : Json
  reporter : Json
  assignee : Json
  created_date : Json
  updated_date : Json
  resolved_date : Json
  labels : Json
  components : List Json
  comments : List Json
  training_task : String

/-- Python `s.split('-')[0]`: the characters up to the first '-'
(the whole string when no '-' occurs; `""` stays `""`). -/
def pySplitHead (s : String) : String := ⟨s.data.takeWhile (fun c => c ≠ '-')⟩

/-- The project derivation `issue_id.split('-')[0] if issue_id else ''`
(line 205): a truthy non-string key raises `AttributeError`. -/
def projectOf (issue_id : Json) : Except String String :=
  if truthy issue_id then
    match issue_id with
    | .str s => .ok (pySplitHead s)
    | _ => .error "AttributeError"
  else .ok ""

/-- Body of the comprehension `[c.get('name', '') for c in ...]` over a
Python list: left to right, raising at the first non-dict element. -/
def componentNamesList : List Json → Except String (List Json)
  | [] => .ok []
  | c :: rest =>
      match pyGet c "name" (.str "") with
      | .error e => .error e
      | .ok v =>
          match componentNamesList rest with
          | .error e => .error e
          | .ok vs => .ok (v :: vs)

/-- The components extraction of line 223: iterating a scalar raises
`TypeError`; a non-empty string or dict iterates to non-dict elements whose
`.get` raises `AttributeError`; an empty string or dict iterates to nothing. -/
def componentNames : Json → Except String (List Json)
  | .arr elems => componentNamesList elems
  | .str s => if s = "" then .ok [] else .error "AttributeError"
  | .obj kvs => if kvs.isEmpty then .ok [] else .error "AttributeError"
  | _ => .error "TypeError"

/-- `DataTransformer.transform_issue` (lines 199-245), embedded step by step
in Python's evaluation order; every step that can raise is a fallible match. -/
def transform_issue (issue_data : Json) (comments : List Json) :
    Except String JiraIssue :=
  match pyGet issue_data "fields" (.obj []) with
  | .error e => .error e
  | .ok fields =>
  match pyGet issue_data "key" (.str "") with
  | .error e => .error e
  | .ok issue_id =>
  match projectOf issue_id with
  | .error e => .error e
  | .ok project =>
    let title := safe_get fields ["summary"] (.str "No Title")
    let description := safe_get fields ["description"] (.str "No Description")
    let status := safe_get fields ["status", "name"] (.str "Unknown")
    let priority := safe_get fields ["priority", "name"] (.str "Unknown")
    let issue_type := safe_get fields ["issuetype", "name"] (.str "Unknown")
    let reporter := safe_get fields ["reporter", "displayName"] (.str "Unknown")
    let assignee := safe_get fields ["assignee", "displayName"] .null
    match pyGet fields "created" (.str "") with
    | .error e => .error e
    | .ok created_date =>
    match pyGet fields "updated" (.str "") with
    | .error e => .error e
    | .ok updated_date =>
    match pyGet fields "resolutiondate" .null with
    | .error e => .error e
    | .ok resolved_date =>
    match pyGet fields "labels" (.arr []) with
    | .error e => .error e
    | .ok labels =>
    match pyGet fields "components" (.arr []) with
    | .error e => .error e
    | .ok comps =>
    match componentNames comps with
    | .error e => .error e
    | .ok components =>
    match determine_training_task issue_type description comments with
    | .error e => .error e
    | .ok training_task =>
      .ok ⟨issue_id, project, title, description, status, priority, issue_type,
        reporter, assignee, created_date, updated_date, resolved_date,
        labels, components, comments, training_task⟩

/-- Values on which Python `len` is defined. -/
def lenOk : Json → Bool
  | .str _ => true
  | .arr _ => true
  | .obj _ => true
  | _ => false

/-- Test for a Python dict among JSON values. -/
def isObj : Json → Bool
  | .obj _ => true
  | _ => false

/-- A components value accepted by the comprehension of line 223 without
raising: a list whose entries are all dicts. -/
def componentsOk : Json → Bool
  | .arr elems => elems.all isObj
  | _ => false

theorem exists_ok_of_isSome {α : Type} (e : Except String α)
    (h : e.toOption.isSome = true) : ∃ a, e = .ok a := by
  cases e <;> simp_all [Except.toOption]

theorem isObj_eq (c : Json) (h : isObj c = true) : ∃ kvs, c = .obj kvs := by
  cases c <;> simp_all [isObj]

theorem componentNamesList_ok (elems : List Json)
    (h : ∀ c ∈ elems, ∃ kvs, c = Json.obj kvs) :
    ∃ l, componentNamesList elems = .ok l := by
  induction elems with
  | nil => exact ⟨[], rfl⟩
  | cons c rest ih =>
      obtain ⟨kvs, rfl⟩ := h c (by simp)
      obtain ⟨l, hl⟩ := ih (fun c hc => h c (by simp [hc]))
      exact ⟨(lookupKey kvs "name").getD (.str "") :: l,
        by simp [componentNamesList, pyGet, hl]⟩

theorem componentNames_ok_of_componentsOk (j : Json) (h : componentsOk j = true) :
    ∃ l, componentNames j = .ok l := by
  cases j with
  | arr elems =>
      have h' : ∀ c ∈ elems, ∃ kvs, c = Json.obj kvs := by
        intro c hc
        have hall : isObj c = true := by
          simp only [componentsOk] at h
          exact List.all_eq_true.mp h c hc
        exact isObj_eq c hall
      obtain ⟨l, hl⟩ := componentNamesList_ok elems h'
      exact ⟨l, hl⟩
  | null => simp [componentsOk] at h
  | bool b => simp [componentsOk] at h
  | num n => simp [componentsOk] at h
  | str s => simp [componentsOk] at h
  | obj kvs => simp [componentsOk] at h

theorem determine_ok_of_lenOk (s : String) (d : Json) (cs : List Json)
    (h : lenOk d = true) : ∃ r, determine_training_task (.str s) d cs = .ok r := by
  cases d <;> simp [lenOk] at h <;>
  · simp only [determine_training_task, pyLower, pyLen]
    split
    · exact ⟨_, rfl⟩
    · split
      · exact ⟨_, rfl⟩
      · split
        · exact ⟨_, rfl⟩
        · exact ⟨_, rfl⟩

theorem projectOf_ok (j : Json)
    (h : (∃ s, j = .str s) ∨ truthy j = false) : ∃ p, projectOf j = .ok p := by
  rcases h with ⟨s, rfl⟩ | hf
  · cases ht : truthy (.str s)
    · exact ⟨"", by simp [projectOf, ht]⟩
    · exact ⟨pySplitHead s, by simp [projectOf, ht]⟩
  · exact ⟨"", by simp [projectOf, hf]⟩

/-- C8 counterexample: the claim includes null nested structure, but
`issue_data = {'fields': {'components': None}}` makes line 223 iterate
`None`, raising `TypeError` — the exception escapes `transform_issue`, which
is therefore not total on malformed input as claimed. -/
theorem c8_counterexample :
    transform_issue (.obj [("fields", .obj [("components", .null)])]) [] =
      .error "TypeError" := rfl

/-- C8 amended: `transform_issue` tolerates absent nested structure (and
non-dict values where `safe_get` guards), substituting the documented
defaults, with the fully-absent input yielding the record composed entirely
of defaults; but it is total only when the wrongly-typed cases that bypass
`safe_get` are excluded — the 'key' must be a string when truthy, 'fields'
must be (or default to) a dict, 'components' must be a list of dicts, the
extracted issue type must be a string and the extracted description must
support `len`. -/
theorem c8_transform_defaults (kvs fkvs : List (String × Json)) (comments : List Json)
    (hfields : (lookupKey kvs "fields").getD (.obj []) = .obj fkvs)
    (hkey : (∃ s, (lookupKey kvs "key").getD (.str "") = .str s) ∨
      truthy ((lookupKey kvs "key").getD (.str "")) = false)
    (hcomp : componentsOk ((lookupKey fkvs "components").getD (.arr [])) = true)
    (htype : ∃ s, safe_get (.obj fkvs) ["issuetype", "name"] (.str "Unknown") = .str s)
    (hdesc : lenOk (safe_get (.obj fkvs) ["description"] (.str "No Description")) = true) :
    (∃ rec, transform_issue (.obj kvs) comments = .ok rec) ∧
    transform_issue (.obj []) comments =
      .ok ⟨.str "", "", .str "No Title", .str "No Description", .str "Unknown",
        .str "Unknown", .str "Unknown", .str "Unknown", .null, .str "", .str "",
        .null, .arr [], [], comments, "general"⟩ := by
  constructor
  · obtain ⟨ts, hts⟩ := htype
    obtain ⟨comps, hcomps⟩ := componentNames_ok_of_componentsOk _ hcomp
    obtain ⟨tt, htt⟩ := determine_ok_of_lenOk ts
      (safe_get (.obj fkvs) ["description"] (.str "No Description")) comments hdesc
    obtain ⟨p, hp⟩ := projectOf_ok ((lookupKey kvs "key").getD (.str "")) hkey
    apply exists_ok_of_isSome
    simp only [transform_issue, pyGet, hfields, hp, hts, htt, hcomps,
      Except.toOption, Option.isSome]
  · rfl

/-- Witness for C8: the empty raw item yields the all-defaults record. -/
theorem c8_transform_defaults_witness :
    (∃ rec, transform_issue (.obj []) [] = .ok rec) ∧
    transform_issue (.obj []) [] =
      .ok ⟨.str "", "", .str "No Title", .str "No Description", .str "Unknown",
        .str "Unknown", .str "Unknown", .str "Unknown", .null, .str "", .str "",
        .null, .arr [], [], [], "general"⟩ :=
  c8_transform_defaults [] [] [] rfl (Or.inr rfl) rfl ⟨"Unknown", rfl⟩ rfl

/-- Outcome of one `self.session.get` call inside `_make_request`: an HTTP
response with status code, optional parsed Retry-After header and parsed JSON
body, or a `requests.exceptions.Timeout`, or another
`requests.exceptions.RequestException`. -/
inductive HttpResult where
  | status (code : Nat) (retryAfter : Option Nat) (body : Json)
  | timeout
  | reqError

/-- Observable events of `_make_request`: the `_rate_limit()` call, the
`session.get` of attempt `i`, and a `time.sleep` of a duration in seconds. -/
inductive Ev where
  | rateLimitCall
  | request (i : Nat)
  | sleep (secs : Nat)
deriving DecidableEq

/-- Durations extracted from an event trace. -/
def sleepsOf (evs : List Ev) : List Nat :=
  evs.filterMap (fun e => match e with | .sleep s => some s | _ => none)

/-- `int(response.headers.get('Retry-After', 60))` (line 86) for a response
whose header, when present, holds an integer. -/
def retryAfterOf : HttpResult → Nat
  | .status _ ra _ => ra.getD 60
  | _ => 0

/-- The `for attempt in range(max_retries)` loop body of `_make_request`
(lines 80-119). `resps i` is the outcome of the request made at attempt `i`
(every iteration performs exactly one request). `fuel` counts the remaining
iterations, so the call at attempt `a` carries `fuel = max_retries - a`;
in particular `fuel = 1` means `attempt == max_retries - 1`, the case line
114 checks for a `RequestException`. Falling out of the loop returns `None`
(line 119). Result: the emitted events and the returned value. -/
def mrLoop (resps : Nat → HttpResult) : Nat → Nat → List Ev × Option Json
  | _, 0 => ([], none)
  | attempt, fuel + 1 =>
      match resps attempt with
      | .status code ra body =>
          if code = 429 then
            let rest := mrLoop resps (attempt + 1) fuel
            (.request attempt :: .sleep (ra.getD 60) :: rest.1, rest.2)
          else if 500 ≤ code then
            let rest := mrLoop resps (attempt + 1) fuel
            (.request attempt :: .sleep (2 ^ attempt) :: rest.1, rest.2)
          else if code = 200 then
            ([.request attempt], some body)
          else
            ([.request attempt], none)
      | .timeout =>
          let rest := mrLoop resps (attempt + 1) fuel
          (.request attempt :: .sleep (2 ^ attempt) :: rest.1, rest.2)
      | .reqError =>
          if fuel = 0 then ([.request attempt], none)
          else
            let rest := mrLoop resps (attempt + 1) fuel
            (.request attempt :: .sleep (2 ^ attempt) :: rest.1, rest.2)

/-- `JiraAPIClient._make_request` (lines 75-119): one `_rate_limit()` call,
then the retry loop starting at attempt 0 with the full budget. -/
def make_request (resps : Nat → HttpResult) (max_retries : Nat) :
    List Ev × Option Json :=
  let r := mrLoop resps 0 max_retries
  (.rateLimitCall :: r.1, r.2)

/-- Responses that hit the HTTP 429 branch of line 85. -/
def is429 : HttpResult → Bool
  | .status c _ _ => c == 429
  | _ => false

/-- Responses that hit the server-error branch of line 92. -/
def is5xx : HttpResult → Bool
  | .status c _ _ => 500 ≤ c
  | _ => false

/-- Responses that make the loop sleep and move to the next attempt
(429, 5xx, timeout) or consume the attempt with a request error. -/
def retryable (r : HttpResult) : Bool :=
  match r with
  | .status c _ _ => c == 429 || decide (500 ≤ c)
  | .timeout => true
  | .reqError => true

theorem retryable_of_is429 (r : HttpResult) (h : is429 r = true) : retryable r = true := by
  cases r <;> simp_all [is429, retryable]

theorem retryable_of_is5xx (r : HttpResult) (h : is5xx r = true) : retryable r = true := by
  cases r <;> simp_all [is5xx, retryable]

/-- Exhausting the budget: when every attempt in the window is retryable, the
loop falls through and returns `None`. -/
theorem mrLoop_none_of_retryable (resps : Nat → HttpResult) :
    ∀ fuel a, (∀ i, i < fuel → retryable (resps (a + i)) = true) →
      (mrLoop resps a fuel).2 = none := by
  intro fuel
  induction fuel with
  | zero => intro a _; rfl
  | succ f ih =>
      intro a h
      have h0 : retryable (resps a) = true := by
        have := h 0 (Nat.succ_pos f)
        simpa using this
      have hrest : ∀ i, i < f → retryable (resps (a + 1 + i)) = true := by
        intro i hi
        have := h (i + 1) (by omega)
        have he : a + (i + 1) = a + 1 + i := by omega
        rwa [he] at this
      have htail := ih (a + 1) hrest
      cases hr : resps a with
      | status c ra b =>
          rw [hr] at h0
          simp only [retryable, Bool.or_eq_true, beq_iff_eq, decide_eq_true_eq] at h0
          rcases h0 with h429 | h5
          · simp [mrLoop, hr, h429, htail]
          · have : ¬ c = 429 := by omega
            simp [mrLoop, hr, this, h5, htail]
      | timeout => simp [mrLoop, hr, htail]
      | reqError =>
          by_cases hf : f = 0
          · simp [mrLoop, hr, hf]
          · simp [mrLoop, hr, hf, htail]

/-- Backoff run: `k` consecutive 5xx responses then a 200 yield the 200 body
after sleeps of exactly `2^a, ..., 2^(a+k-1)`. -/
theorem mrLoop_5xx_then_ok (resps : Nat → HttpResult) (ra : Option Nat) (b : Json) :
    ∀ k a fuel, (∀ i, i < k → is5xx (resps (a + i)) = true) →
      k < fuel → resps (a + k) = .status 200 ra b →
      (mrLoop resps a fuel).2 = some b ∧
      sleepsOf (mrLoop resps a fuel).1 = (List.range k).map (fun i => 2 ^ (a + i)) := by
  intro k
  induction k with
  | zero =>
      intro a fuel _ hk h200
      obtain ⟨f, rfl⟩ : ∃ f, fuel = f + 1 := ⟨fuel - 1, by omega⟩
      rw [Nat.add_zero] at h200
      simp [mrLoop, h200, sleepsOf]
  | succ k ih =>
      intro a fuel h hk h200
      obtain ⟨f, rfl⟩ : ∃ f, fuel = f + 1 := ⟨fuel - 1, by omega⟩
      have h0 : is5xx (resps a) = true := by
        have := h 0 (Nat.succ_pos k)
        simpa using this
      have hshift : ∀ i, i < k → is5xx (resps (a + 1 + i)) = true := by
        intro i hi
        have := h (i + 1) (by omega)
        have he : a + (i + 1) = a + 1 + i := by omega
        rwa [he] at this
      have h200' : resps (a + 1 + k) = .status 200 ra b := by
        have he : a + (k + 1) = a + 1 + k := by omega
        rwa [he] at h200
      obtain ⟨ih2, ih1⟩ := ih (a + 1) f hshift (by omega) h200'
      cases hr : resps a with
      | status c ra' b' =>
          rw [hr] at h0
          simp only [is5xx, decide_eq_true_eq] at h0
          have hc429 : ¬ c = 429 := by omega
          refine ⟨?_, ?_⟩
          · simp [mrLoop, hr, hc429, h0, ih2]
          · have htr : (mrLoop resps a (f + 1)).1 =
                .request a :: .sleep (2 ^ a) :: (mrLoop resps (a + 1) f).1 := by
              simp [mrLoop, hr, hc429, h0]
            have hcons : sleepsOf
                (Ev.request a :: Ev.sleep (2 ^ a) :: (mrLoop resps (a + 1) f).1) =
                2 ^ a :: sleepsOf (mrLoop resps (a + 1) f).1 := by
              simp [sleepsOf]
            rw [htr, hcons, ih1, List.range_succ_eq_map]
            simp only [List.map_cons, List.map_map]
            refine congrArg₂ List.cons (by rw [Nat.add_zero]) ?_
            apply List.map_congr_left
            intro i _
            have he : a + 1 + i = a + (i + 1) := by omega
            simp [Function.comp, he]
      | timeout => rw [hr] at h0; simp [is5xx] at h0
      | reqError => rw [hr] at h0; simp [is5xx] at h0

/-- Throttling run: `k` consecutive 429 responses then a 200 yield the 200
body after sleeping each response's Retry-After duration (default 60). -/
theorem mrLoop_429_then_ok (resps : Nat → HttpResult) (ra : Option Nat) (b : Json) :
    ∀ k a fuel, (∀ i, i < k → is429 (resps (a + i)) = true) →
      k < fuel → resps (a + k) = .status 200 ra b →
      (mrLoop resps a fuel).2 = some b ∧
      sleepsOf (mrLoop resps a fuel).1 =
        (List.range k).map (fun i => retryAfterOf (resps (a + i))) := by
  intro k
  induction k with
  | zero =>
      intro a fuel _ hk h200
      obtain ⟨f, rfl⟩ : ∃ f, fuel = f + 1 := ⟨fuel - 1, by omega⟩
      rw [Nat.add_zero] at h200
      simp [mrLoop, h200, sleepsOf]
  | succ k ih =>
      intro a fuel h hk h200
      obtain ⟨f, rfl⟩ : ∃ f, fuel = f + 1 := ⟨fuel - 1, by omega⟩
      have h0 : is429 (resps a) = true := by
        have := h 0 (Nat.succ_pos k)
        simpa using this
      have hshift : ∀ i, i < k → is429 (resps (a + 1 + i)) = true := by
        intro i hi
        have := h (i + 1) (by omega)
        have he : a + (i + 1) = a + 1 + i := by omega
        rwa [he] at this
      have h200' : resps (a + 1 + k) = .status 200 ra b := by
        have he : a + (k + 1) = a + 1 + k := by omega
        rwa [he] at h200
      obtain ⟨ih2, ih1⟩ := ih (a + 1) f hshift (by omega) h200'
      cases hr : resps a with
      | status c ra' b' =>
          rw [hr] at h0
          simp only [is429, beq_iff_eq] at h0
          refine ⟨?_, ?_⟩
          · simp [mrLoop, hr, h0, ih2]
          · have htr : (mrLoop resps a (f + 1)).1 =
                .request a :: .sleep (ra'.getD 60) :: (mrLoop resps (a + 1) f).1 := by
              simp [mrLoop, hr, h0]
            have hcons : sleepsOf
                (Ev.request a :: Ev.sleep (ra'.getD 60) :: (mrLoop resps (a + 1) f).1) =
                ra'.getD 60 :: sleepsOf (mrLoop resps (a + 1) f).1 := by
              simp [sleepsOf]
            rw [htr, hcons, ih1, List.range_succ_eq_map]
            simp only [List.map_cons, List.map_map]
            refine congrArg₂ List.cons ?_ ?_
            · rw [Nat.add_zero, hr]
              rfl
            · apply List.map_congr_left
              intro i _
              have he : a + 1 + i = a + (i + 1) := by omega
              simp [Function.comp, he]
      | timeout => rw [hr] at h0; simp [is429] at h0
      | reqError => rw [hr] at h0; simp [is429] at h0

/-- C4: for `k < max_retries`, `k` consecutive 5xx responses followed by a 200
make `_make_request` return the 200 response's parsed body after exactly the
backoff delays `2^0, ..., 2^(k-1)`; and when the first `max_retries` responses
are all 5xx, it returns `None` with no further attempts. -/
theorem c4_backoff_and_exhaustion (resps : Nat → HttpResult) (max_retries k : Nat)
    (ra : Option Nat) (b : Json)
    (h5 : ∀ i, i < k → is5xx (resps i) = true) :
    (k < max_retries → resps k = .status 200 ra b →
      (make_request resps max_retries).2 = some b ∧
      sleepsOf (make_request resps max_retries).1 =
        (List.range k).map (fun i => 2 ^ i)) ∧
    (k = max_retries → (make_request resps max_retries).2 = none) := by
  constructor
  · intro hk h200
    have h5' : ∀ i, i < k → is5xx (resps (0 + i)) = true := by
      intro i hi
      rw [Nat.zero_add]
      exact h5 i hi
    have h200' : resps (0 + k) = .status 200 ra b := by rwa [Nat.zero_add]
    obtain ⟨h1, h2⟩ := mrLoop_5xx_then_ok resps ra b k 0 max_retries h5' hk h200'
    refine ⟨h1, ?_⟩
    rw [show sleepsOf (make_request resps max_retries).1 =
      sleepsOf (mrLoop resps 0 max_retries).1 from rfl, h2]
    apply List.map_congr_left
    intro i _
    rw [Nat.zero_add]
  · intro hk
    subst hk
    have : ∀ i, i < k → retryable (resps (0 + i)) = true := by
      intro i hi
      rw [Nat.zero_add]
      exact retryable_of_is5xx _ (h5 i hi)
    exact mrLoop_none_of_retryable resps k 0 this

/-- Witness for C4: two 500 responses then a 200 with body "ok" under the
default budget of 5 give back the body after backoff sleeps of 1 and 2. -/
theorem c4_backoff_and_exhaustion_witness :
    (make_request (fun i => if i < 2 then .status 500 none .null
      else .status 200 none (.str "ok")) 5).2 = some (.str "ok") ∧
    sleepsOf (make_request (fun i => if i < 2 then .status 500 none .null
      else .status 200 none (.str "ok")) 5).1 = [1, 2] := by
  have h := (c4_backoff_and_exhaustion
    (fun i => if i < 2 then .status 500 none .null else .status 200 none (.str "ok"))
    5 2 none (.str "ok")
    (by
      intro i hi
      interval_cases i <;> rfl)).1 (by omega) (by rfl)
  exact ⟨h.1, by rw [h.2]; rfl⟩

/-- C2 counterexample: five consecutive 429 responses under the default budget
of `max_retries = 5` make `_make_request` return `None` — each 429 `continue`
advances the `for attempt in range(max_retries)` loop, so 429s do consume the
retry budget and the client does return Failure under sustained throttling,
contradicting the claim. -/
theorem c2_counterexample :
    (make_request (fun _ => .status 429 (some 1) .null) 5).2 = none := rfl

/-- C2 amended: an HTTP 429 response consumes one unit of the retry budget
like the other retryable outcomes. For `k < max_retries` consecutive 429s
followed by a 200 the client sleeps each server-specified (or default 60)
Retry-After duration and returns the 200 body; after `max_retries`
consecutive 429s it returns `None`. -/
theorem c2_429_consumes_budget (resps : Nat → HttpResult) (max_retries k : Nat)
    (ra : Option Nat) (b : Json)
    (h9 : ∀ i, i < k → is429 (resps i) = true) :
    (k < max_retries → resps k = .status 200 ra b →
      (make_request resps max_retries).2 = some b ∧
      sleepsOf (make_request resps max_retries).1 =
        (List.range k).map (fun i => retryAfterOf (resps i))) ∧
    (k = max_retries → (make_request resps max_retries).2 = none) := by
  constructor
  · intro hk h200
    have h9' : ∀ i, i < k → is429 (resps (0 + i)) = true := by
      intro i hi
      rw [Nat.zero_add]
      exact h9 i hi
    have h200' : resps (0 + k) = .status 200 ra b := by rwa [Nat.zero_add]
    obtain ⟨h1, h2⟩ := mrLoop_429_then_ok resps ra b k 0 max_retries h9' hk h200'
    refine ⟨h1, ?_⟩
    rw [show sleepsOf (make_request resps max_retries).1 =
      sleepsOf (mrLoop resps 0 max_retries).1 from rfl, h2]
    apply List.map_congr_left
    intro i _
    rw [Nat.zero_add]
  · intro hk
    subst hk
    have : ∀ i, i < k → retryable (resps (0 + i)) = true := by
      intro i hi
      rw [Nat.zero_add]
      exact retryable_of_is429 _ (h9 i hi)
    exact mrLoop_none_of_retryable resps k 0 this

/-- Witness for C2 (amended): one 429 with Retry-After 7 then a 200 returns
the body after a single sleep of 7 seconds. -/
theorem c2_429_consumes_budget_witness :
    (make_request (fun i => if i = 0 then .status 429 (some 7) .null
      else .status 200 none (.str "ok")) 5).2 = some (.str "ok") ∧
    sleepsOf (make_request (fun i => if i = 0 then .status 429 (some 7) .null
      else .status 200 none (.str "ok")) 5).1 = [7] := by
  have h := (c2_429_consumes_budget
    (fun i => if i = 0 then .status 429 (some 7) .null else .status 200 none (.str "ok"))
    5 1 none (.str "ok")
    (by
      intro i hi
      interval_cases i
      rfl)).1 (by omega) (by rfl)
  exact ⟨h.1, by rw [h.2]; rfl⟩

/-- C9 counterexample: with a 500 response followed by a 200, the full event
trace of `_make_request` holds two request attempts but only the single
leading `_rate_limit()` call — the sleep is not performed before every
attempt, only once before the loop (line 78 sits outside the `for`). -/
theorem c9_counterexample :
    (make_request (fun i => if i = 0 then .status 500 none .null
      else .status 200 none .null) 5).1 =
      [.rateLimitCall, .request 0, .sleep 1, .request 1] := rfl

/-- C9 amended: the rate-limit sleep is performed exactly once per
`_make_request` call, before the first attempt; retries inside the loop do
not re-invoke it. -/
theorem c9_rate_limit_once (resps : Nat → HttpResult) (max_retries : Nat) :
    (make_request resps max_retries).1.head? = some .rateLimitCall ∧
    (make_request resps max_retries).1.count .rateLimitCall = 1 := by
  have hnot : ∀ fuel a, Ev.rateLimitCall ∉ (mrLoop resps a fuel).1 := by
    intro fuel
    induction fuel with
    | zero => intro a; simp [mrLoop]
    | succ f ih =>
        intro a
        cases hr : resps a with
        | status c ra b =>
            by_cases h429 : c = 429
            · simp [mrLoop, hr, h429, ih]
            · by_cases h5 : 500 ≤ c
              · simp [mrLoop, hr, h429, h5, ih]
              · by_cases h200 : c = 200 <;> simp [mrLoop, hr, h429, h5, h200]
        | timeout => simp [mrLoop, hr, ih]
        | reqError =>
            by_cases hf : f = 0
            · simp [mrLoop, hr, hf]
            · simp [mrLoop, hr, hf, ih]
  refine ⟨rfl, ?_⟩
  show (Ev.rateLimitCall :: (mrLoop resps 0 max_retries).1).count .rateLimitCall = 1
  rw [List.count_cons_self, List.count_eq_zero.mpr (hnot max_retries 0)]

/-- One record's processing inside the page loop of `scrape_project`
(lines 330-341): `issue_key = issue_data.get('key', 'UNKNOWN')`, the comments
lookup `comments_map.get(issue_key, [])` (embedded as a total map from keys
to fetched comment lists), then `transform_issue`; any raised exception is
caught by the `except`, logged and counted. -/
def process_issue (commentsMap : Json → List Json) (issue_data : Json) :
    Except String JiraIssue :=
  match pyGet issue_data "key" (.str "UNKNOWN") with
  | .error e => .error e
  | .ok issue_key => transform_issue issue_data (commentsMap issue_key)

/-- Result of processing one fetched page in `scrape_project`: the records
written to the output file in page order, the error count, and the advanced
offset. -/
structure PageOutcome where
  written : List JiraIssue
  errors : Nat
  newStart : Nat

/-- The records that reach the `f.write` of line 336, in page order: the
per-record results whose transform succeeded. -/
def writtenRecords {α : Type} : List (Except String α) → List α
  | [] => []
  | .ok a :: rest => a :: writtenRecords rest
  | .error _ :: rest => writtenRecords rest

/-- The `self.stats['errors'] += 1` increments of line 341 over a page: one
per failing record. -/
def countFailures {α : Type} : List (Except String α) → Nat
  | [] => 0
  | .ok _ :: rest => countFailures rest
  | .error _ :: rest => countFailures rest + 1

/-- The per-page section of `scrape_project` (lines 329-345): each issue is
transformed and written; a per-record failure is logged, counted and skipped
without aborting the page; then `start_at += len(issues)` (line 344) is the
offset passed to `update_project_progress`. -/
def process_page (commentsMap : Json → List Json) (issues : List Json)
    (start_at : Nat) : PageOutcome :=
  let results := issues.map (process_issue commentsMap)
  ⟨writtenRecords results, countFailures results, start_at + issues.length⟩

theorem written_add_errors {α : Type} (rs : List (Except String α)) :
    (writtenRecords rs).length + countFailures rs = rs.length := by
  induction rs with
  | nil => rfl
  | cons r rest ih =>
      cases r <;> simp [writtenRecords, countFailures] <;> omega

/-- C1 counterexample: a page holding the single raw item `{'key': 1}` — a
wrongly-typed key whose transform raises `AttributeError` and is skipped —
writes 0 records, yet the offset advances by 1 (one error is counted), so
the persisted offset does not equal the number of records durably written. -/
theorem c1_counterexample :
    (process_page (fun _ => []) [.obj [("key", .num 1)]] 0).written.length = 0 ∧
    (process_page (fun _ => []) [.obj [("key", .num 1)]] 0).errors = 1 ∧
    (process_page (fun _ => []) [.obj [("key", .num 1)]] 0).newStart = 1 :=
  ⟨rfl, rfl, rfl⟩

/-- C1 corrected/amended: after a page, the checkpoint is advanced and
persisted by the number of raw items in the fetched page (`len(issues)`),
counting also records that were skipped by a per-record failure; this equals
the number of records written exactly when no per-record failure occurred. -/
theorem c1_advance_by_page_length (kvs pkvs : List (String × Json)) (project : String)
    (commentsMap : Json → List Json) (issues : List Json) (start_at : Nat)
    (hp : lookupKey kvs "projects" = some (.obj pkvs)) :
    (process_page commentsMap issues start_at).newStart = start_at + issues.length ∧
    (process_page commentsMap issues start_at).written.length +
      (process_page commentsMap issues start_at).errors = issues.length ∧
    ((process_page commentsMap issues start_at).errors = 0 →
      (process_page commentsMap issues start_at).newStart =
        start_at + (process_page commentsMap issues start_at).written.length) ∧
    ∃ st,
      update_project_progress (.obj kvs) project
          (process_page commentsMap issues start_at).newStart =
        .ok (st, some (some st)) ∧
      get_project_progress st project = .ok (.num (start_at + issues.length)) := by
  have hlen : (process_page commentsMap issues start_at).written.length +
      (process_page commentsMap issues start_at).errors = issues.length := by
    have h := written_add_errors (issues.map (process_issue commentsMap))
    simpa [process_page] using h
  refine ⟨rfl, hlen, ?_, ?_⟩
  · intro h0
    have hns : (process_page commentsMap issues start_at).newStart =
      start_at + issues.length := rfl
    omega
  · refine ⟨Json.obj (dictSet kvs "projects"
      (.obj (dictSet pkvs project (.num (start_at + issues.length))))), ?_, ?_⟩
    · simp [update_project_progress, hp, process_page]
    · simp [get_project_progress, lookupKey_dictSet_self]

/-- Witness for C1 (amended) on the empty page at offset 3 with a fresh
checkpoint state. -/
theorem c1_advance_by_page_length_witness :
    (process_page (fun _ => []) [] 3).newStart = 3 + ([] : List Json).length ∧
    (process_page (fun _ => []) [] 3).written.length +
      (process_page (fun _ => []) [] 3).errors = ([] : List Json).length ∧
    ((process_page (fun _ => []) [] 3).errors = 0 →
      (process_page (fun _ => []) [] 3).newStart =
        3 + (process_page (fun _ => []) [] 3).written.length) ∧
    ∃ st,
      update_project_progress (.obj [("projects", .obj [])]) "KAFKA"
          (process_page (fun _ => []) [] 3).newStart =
        .ok (st, some (some st)) ∧
      get_project_progress st "KAFKA" = .ok (.num (3 + ([] : List Json).length)) :=
  c1_advance_by_page_length [("projects", .obj [])] [] "KAFKA" (fun _ => []) [] 3 rfl

/-- One page of a search response as consumed by the pagination loop:
`issues = response.get('issues', [])` and `total = response.get('total', 0)`
destructured from the response dict; a request Failure (`if not response`)
is `none`. -/
structure SearchPage where
  issues : List Json
  total : Int

/-- The offsets at which the loop of `scrape_project` (lines 291-350) calls
`search_issues`, with `fuel` bounding the number of iterations observed:
each iteration calls `search(start_at)`; a Failure or an empty item list
ends the loop; otherwise `start_at += len(issues)` and the loop ends when
`start_at >= total` (line 349). -/
def scrape_offsets (search : Nat → Option SearchPage) : Nat → Nat → List Nat
  | _, 0 => []
  | start_at, fuel + 1 =>
      start_at ::
        match search start_at with
        | none => []
        | some page =>
            if page.issues.isEmpty then []
            else
              if page.total ≤ ((start_at + page.issues.length : Nat) : Int) then []
              else scrape_offsets search (start_at + page.issues.length) fuel

/-- Initialization of `scrape_project` (line 287): the loop's first offset is
the checkpointed `get_project_progress(project)`. -/
def scrape_project_offsets (state : Json) (project : String)
    (search : Nat → Option SearchPage) (fuel : Nat) : List Nat :=
  match get_project_progress state project with
  | .ok (.num n) => scrape_offsets search n.toNat fuel
  | _ => []

/-- C5: resume and loop control. For a source whose persisted checkpoint
offset is `n`, the first `search` call is made at offset `n`, not 0; on a
successful response the loop advances the offset by the page's item count
and calls `search` again, stopping exactly when the returned item list is
empty or the advanced offset (the cumulative count of items processed, per
the spec's glossary) has reached the reported total. -/
theorem c5_resume_from_checkpoint (state : Json) (project : String)
    (search : Nat → Option SearchPage) (n fuel : Nat)
    (hprog : get_project_progress state project = .ok (.num (n : Int)))
    (hfuel : 0 < fuel) :
    (scrape_project_offsets state project search fuel).head? = some n ∧
    (∀ m f page, search m = some page → page.issues ≠ [] →
      ((m + page.issues.length : Nat) : Int) < page.total →
      scrape_offsets search m (f + 1) =
        m :: scrape_offsets search (m + page.issues.length) f) ∧
    (∀ m f page, search m = some page →
      (page.issues = [] ∨ page.total ≤ ((m + page.issues.length : Nat) : Int)) →
      scrape_offsets search m (f + 1) = [m]) := by
  refine ⟨?_, ?_, ?_⟩
  · obtain ⟨f, rfl⟩ : ∃ f, fuel = f + 1 := ⟨fuel - 1, by omega⟩
    simp [scrape_project_offsets, hprog, scrape_offsets]
  · intro m f page hs hne hlt
    have hnle : ¬ page.total ≤ (m : Int) + (page.issues.length : Int) := by omega
    have hef : page.issues.isEmpty = false := by
      cases hi : page.issues.isEmpty
      · rfl
      · exact absurd (List.isEmpty_iff.mp hi) hne
    simp [scrape_offsets, hs, hef, hnle]
  · intro m f page hs hstop
    rcases hstop with he | htot
    · have hef : page.issues.isEmpty = true := List.isEmpty_iff.mpr he
      simp [scrape_offsets, hs, hef]
    · by_cases he : page.issues.isEmpty = true
      · simp [scrape_offsets, hs, he]
      · have htot' : page.total ≤ (m : Int) + (page.issues.length : Int) := by omega
        simp [scrape_offsets, hs, he, htot']

/-- Witness for C5: a checkpoint offset of 2 for "KAFKA" makes the first (and
only, as the search fails) call go to offset 2, not 0. -/
theorem c5_resume_from_checkpoint_witness :
    (scrape_project_offsets (.obj [("projects", .obj [("KAFKA", .num 2)])]) "KAFKA"
      (fun _ => none) 1).head? = some 2 :=
  (c5_resume_from_checkpoint (.obj [("projects", .obj [("KAFKA", .num 2)])]) "KAFKA"
    (fun _ => none) 2 1 rfl (by decide)).1

end Jira
